import Mathlib

/-!
Verification development for the wiring-compute centerline-length pipeline.

The repository estimates the physical centerline length of rendered text
glyphs: per character it extracts the glyph outline, rasterizes it to a
binary grid, thins the grid to a skeleton, and measures the skeleton's
path length in millimetres.

This file shallowly embeds the relevant parts of the two sources:
  * `src/centerline_core.py`  (the accurate geometric pipeline), and
  * `src/compute_app.py`      (the advance-width fallback, the dispatcher,
                               the SVG-export length estimator, and the
                               filename sanitizer).

External collaborators that are third-party libraries (fontTools glyph
drawing, shapely geometry, PIL polygon fill, skimage skeletonize) are not
part of the repository; following the specification, which lists them as
unspecified collaborators, they are abstracted: their outputs appear as
fields of the font/shape models or as explicit function parameters, and
all theorems quantify over them.

Floats are modelled as `ℚ` where the code only does field arithmetic and
comparisons, and as `ℝ` where square roots occur (length values).
-/

namespace WiringCompute

/-! ## Binary occupancy grids (numpy bool arrays, row-major) -/

/-- A 2D boolean array as a list of rows (numpy array of dtype bool). -/
abbrev Grid := List (List Bool)

/-- Element access `A[i][j]`, `false` outside the stored extent. -/
def gridGet (A : Grid) (i j : ℕ) : Bool :=
  (A.getD i []).getD j false

/-- `np.zeros((n, n), dtype=bool)`: the all-false square grid. -/
def zerosGrid (n : ℕ) : Grid :=
  List.replicate n (List.replicate n false)

/-- `np.roll(A, -1, axis=0)`: rows shift up by one, toroidally
(`new[i] = old[(i+1) mod H]`). -/
def rollRowsUp (A : Grid) : Grid := A.rotate 1

/-- `np.roll(A, -1, axis=1)`: columns shift left by one, toroidally
(`new[i][j] = old[i][(j+1) mod W]`). -/
def rollColsLeft (A : Grid) : Grid := A.map (fun r => r.rotate 1)

/-- `np.roll(A, +1, axis=1)`: columns shift right by one, toroidally
(`new[i][j] = old[i][(j-1) mod W]`, i.e. a rotation by `W - 1`). -/
def rollColsRight (A : Grid) : Grid := A.map (fun r => r.rotate (r.length - 1))

/-- `(A & B).sum()`: the number of positions at which both grids hold
`true` (elementwise conjunction, then counting). -/
def andCount (A B : Grid) : ℕ :=
  (List.zipWith (fun r s => (List.zipWith (· && ·) r s).count true) A B).sum

/-- A grid is rectangular of width `W` when every row has length `W`
(numpy arrays always are). -/
def Rect (A : Grid) (W : ℕ) : Prop := ∀ r ∈ A, r.length = W

/-! ## The two skeleton-length estimators of the repository -/

/-- Embeds `_length_from_skeleton_bool` (src/compute_app.py, lines
113–119): the neighbour-sum estimator used for the SVG exports.  It
counts, via toroidal `np.roll` shifts, adjacent true-pixel pairs along
down, right, down-right and down-left, weighting diagonal pairs by √2,
and scales by the physical units per pixel. -/
noncomputable def length_from_skeleton_bool (A : Grid) (mm_per_px : ℝ) : ℝ :=
  let e_down : ℕ := andCount A (rollRowsUp A)
  let e_right : ℕ := andCount A (rollColsLeft A)
  let e_dr : ℕ := andCount A (rollColsLeft (rollRowsUp A))
  let e_dl : ℕ := andCount A (rollColsRight (rollRowsUp A))
  (((e_down : ℝ) + (e_right : ℝ)) + Real.sqrt 2 * ((e_dr : ℝ) + (e_dl : ℝ)))
    * mm_per_px

/-- `np.where(skel)` read off as a row-major list of `(row, column)`
coordinates of the true pixels. -/
def whereList (A : Grid) : List (ℕ × ℕ) :=
  (List.range A.length).flatMap (fun i =>
    ((List.range ((A.getD i []).length)).filter (fun j => gridGet A i j)).map
      (fun j => (i, j)))

/-- One term `((dx*dx + dy*dy) ** 0.5)` of the legacy estimator's loop:
the Euclidean distance between two pixel coordinates `(y, x)`. -/
noncomputable def stepDist (p q : ℕ × ℕ) : ℝ :=
  Real.sqrt ((((q.2 : ℤ) - (p.2 : ℤ)) * ((q.2 : ℤ) - (p.2 : ℤ)) +
              ((q.1 : ℤ) - (p.1 : ℤ)) * ((q.1 : ℤ) - (p.1 : ℤ)) : ℤ) : ℝ)

/-- The summation loop of `_skeleton_length`: Euclidean distances between
consecutive entries of the pixel list. -/
noncomputable def seqLen : List (ℕ × ℕ) → ℝ
  | p :: q :: rest => stepDist p q + seqLen (q :: rest)
  | _ => 0

/-- Embeds `_skeleton_length` (src/centerline_core.py, lines 93–104)
after its call to the external thinning primitive `skimage.skeletonize`
(an unspecified collaborator per spec §4.4/§6, supplied separately as a
function parameter by the orchestrator below): given the already-thinned
skeleton grid, list the true pixels in raster-scan (`np.where`) order,
return `0.0` for fewer than two pixels, and otherwise sum the Euclidean
distances between consecutive pixels and scale to physical units. -/
noncomputable def skeleton_length (skel : Grid) (scale_units_per_pixel : ℝ) : ℝ :=
  let pts := whereList skel
  if pts.length < 2 then 0 else seqLen pts * scale_units_per_pixel

/-! ## Spec-worded neighbour-sum policy (for the refinement theorem) -/

/-- Modelled from the spec's words (§4.5, neighbour-sum policy), for
comparison with `length_from_skeleton_bool`: the number of `(i, j)` with
both `A[i][j]` and `A[(i+di) mod H][(j+dj) mod W]` true — an adjacent
true-pixel pair count under a toroidal shift by `(di, dj)`. -/
def torPairs (A : Grid) (W di dj : ℕ) : ℕ :=
  ((List.range A.length).map (fun i =>
    ((List.range W).filter (fun j =>
      gridGet A i j && gridGet A ((i + di) % A.length) ((j + dj) % W))).length)).sum

/-- Modelled from the spec's words (§4.5): total length = (axis-aligned
adjacent pair count + √2 × diagonal adjacent pair count) × units per
pixel, the four directions being down `(1,0)`, right `(0,1)`, down-right
`(1,1)` and down-left `(1, W-1)` (a left shift by one column is a
toroidal shift by `W - 1`). -/
noncomputable def specNeighborSumLength (A : Grid) (W : ℕ) (u : ℝ) : ℝ :=
  (((torPairs A W 1 0 + torPairs A W 0 1 : ℕ) : ℝ) +
    Real.sqrt 2 * ((torPairs A W 1 1 + torPairs A W 1 (W - 1) : ℕ) : ℝ)) * u

/-! ## Shape and font models (collaborator outputs as data) -/

/-- A font-load failure (`TTFont` raising on a malformed binary). -/
abbrev FontLoadError := String

/-- The result of `_glyph_polygon`'s geometry stage for one glyph: the
shapely (Multi)Polygon produced by `unary_union`, abstracted to the data
the pipeline reads from it — `is_empty`, the bounding box `bounds`, and
the binary raster that PIL's polygon fill produces for it at a given
resolution (the fill itself is an external collaborator). -/
structure ShapeModel where
  isEmpty : Bool
  minx : ℚ
  miny : ℚ
  maxx : ℚ
  maxy : ℚ
  fill : ℕ → Grid

/-- `max(maxx - minx, maxy - miny)`: the larger bounding-box extent. -/
def ShapeModel.extent (s : ShapeModel) : ℚ :=
  max (s.maxx - s.minx) (s.maxy - s.miny)

/-- A loaded `TTFont`, abstracted to what `compute_lengths` reads:
`unitsPerEm` from the `head` table, the best cmap (`None` for an unmapped
codepoint), and per glyph name the outcome of the pen-drawing /
`get_polygons` / `unary_union` stage (`none` when the glyph program
yields no contour with more than two points). -/
structure FontModel where
  upm : ℚ
  cmap : Char → Option String
  glyphShape : String → Option ShapeModel

/-- Embeds `_glyph_polygon` (src/centerline_core.py, lines 42–53): look
the character up in the cmap; a missing or falsy (empty) glyph name gives
`None`; otherwise draw the glyph and union its contours (abstracted as
`glyphShape`, `none` when no valid polygons result). -/
def glyph_polygon (font : FontModel) (ch : Char) : Option ShapeModel :=
  match font.cmap ch with
  | none => none
  | some gname => if gname = "" then none else font.glyphShape gname

/-- Embeds `_rasterize_polygon_fast` (src/centerline_core.py, lines
55–91): an empty shape gives an all-false `raster × raster` grid; a shape
whose larger bounding-box extent `W = max(maxx-minx, maxy-miny)` is `≤ 0`
likewise; otherwise the shape's contours are scan-converted by the PIL
polygon-fill collaborator (the `fill` field). -/
def rasterize_polygon_fast (shape : ShapeModel) (raster : ℕ) : Grid :=
  if shape.isEmpty then zerosGrid raster
  else if shape.extent ≤ 0 then zerosGrid raster
  else shape.fill raster

/-- The affine transform `tx` of `_rasterize_polygon_fast` (lines 66–72):
`sx = sy = (raster - 2) / W` with `W` the larger bounding-box extent, and
`tx (x, y) = (x·sx + ox, (maxy - y)·sy + 1)` where `ox = -minx·sx + 1`
(the source also computes `oy = -miny·sy + 1` but the y coordinate is
produced from `maxy - y`, flipping for image coordinates). -/
def rasterTransform (s : ShapeModel) (raster : ℚ) (p : ℚ × ℚ) : ℚ × ℚ :=
  let sx := (raster - 2) / s.extent
  let ox := -s.minx * sx + 1
  (p.1 * sx + ox, (s.maxy - p.2) * sx + 1)

/-- The single uniform scale factor of the rasterizer's transform. -/
def uniformScale (s : ShapeModel) (raster : ℚ) : ℚ :=
  (raster - 2) / s.extent

/-! ## The core pipeline orchestrator (`compute_lengths`) -/

/-- One per-character entry `{"char": ch, "length_mm": v}` of the
measurement. -/
structure CharMeasure where
  char : Char
  length_mm : ℝ

/-- The per-character length in font units computed by the body of the
`compute_lengths` loop (src/centerline_core.py, lines 117–142): `0` for a
space, for a character with no (or an empty) glyph polygon, and for a
degenerate bounding box; otherwise the skeleton length of the
rasterized-and-thinned glyph at `units_per_pixel = W / raster` with
`raster = 400`.  The thinning primitive `sk` (skimage `skeletonize`) is
an external collaborator passed as a parameter. -/
noncomputable def charUnits (sk : Grid → Grid) (font : FontModel) (ch : Char) : ℝ :=
  if ch = ' ' then 0 else
  match glyph_polygon font ch with
  | none => 0
  | some s =>
    if s.isEmpty then 0 else
    let mask := rasterize_polygon_fast s 400
    if s.extent ≤ 0 then 0 else
    skeleton_length (sk mask) ((s.extent / 400 : ℚ) : ℝ)

/-- One iteration of the `for ch in text` loop of `compute_lengths`:
append the character's entry to `per` and accumulate `total_units`. -/
noncomputable def measureStep (sk : Grid → Grid) (font : FontModel) (height_mm : ℚ)
    (acc : List CharMeasure × ℝ) (ch : Char) : List CharMeasure × ℝ :=
  if ch = ' ' then (acc.1 ++ [⟨ch, 0⟩], acc.2) else
  match glyph_polygon font ch with
  | none => (acc.1 ++ [⟨ch, 0⟩], acc.2)
  | some s =>
    if s.isEmpty then (acc.1 ++ [⟨ch, 0⟩], acc.2) else
    let mask := rasterize_polygon_fast s 400
    if s.extent ≤ 0 then (acc.1 ++ [⟨ch, 0⟩], acc.2) else
    let length_units := skeleton_length (sk mask) ((s.extent / 400 : ℚ) : ℝ)
    (acc.1 ++ [⟨ch, length_units * ((height_mm / font.upm : ℚ) : ℝ)⟩],
      acc.2 + length_units)

/-- Embeds `compute_lengths` (src/centerline_core.py, lines 106–145)
after the font has been parsed: iterate `measureStep` over the text
starting from `([], 0.0)` and convert the accumulated `total_units` to
millimetres by `letter_height_mm / unitsPerEm`. -/
noncomputable def compute_lengths (sk : Grid → Grid) (font : FontModel)
    (text : List Char) (letter_height_mm : ℚ) : List CharMeasure × ℝ :=
  let r := text.foldl (measureStep sk font letter_height_mm) ([], 0)
  (r.1, r.2 * ((letter_height_mm / font.upm : ℚ) : ℝ))

/-- The entry `compute_lengths` produces for a single character. -/
noncomputable def charMeasureOf (sk : Grid → Grid) (font : FontModel)
    (height_mm : ℚ) (ch : Char) : CharMeasure :=
  ⟨ch, charUnits sk font ch * ((height_mm / font.upm : ℚ) : ℝ)⟩

/-- The `measure` operation of spec §6 as realised by
`compute_lengths`: `TTFont` parsing of the font bytes either fails with a
`FontLoadError` or yields a loaded font (`loaded`), and the measurement
itself never fails. -/
noncomputable def measure (loaded : Except FontLoadError FontModel)
    (sk : Grid → Grid) (text : List Char) (height_mm : ℚ) :
    Except FontLoadError (List CharMeasure × ℝ) :=
  match loaded with
  | .error e => .error e
  | .ok font => .ok (compute_lengths sk font text height_mm)

/-! ## The advance-width fallback (`compute_lengths_fallback`) -/

/-- A loaded `TTFont` as read by the fallback: `unitsPerEm`, the best
cmap, and the `hmtx` metrics table (glyph name ↦ (advance, lsb)). -/
structure FallbackFont where
  unitsPerEm : ℚ
  cmap : Char → Option String
  hmtx : String → Option (ℚ × ℚ)

/-- A Python dict assignment `d[k] = v` on a dict represented as its
insertion-ordered key/value list: an existing key keeps its position and
gets the new value, a new key is appended. -/
def dictUpsert (l : List (Char × ℚ)) (k : Char) (v : ℚ) : List (Char × ℚ) :=
  if l.any (fun p => p.1 = k) then
    l.map (fun p => if p.1 = k then (k, v) else p)
  else l ++ [(k, v)]

/-- The advance width the fallback uses for a character: the cmap entry
(defaulting to `".notdef"`), then that glyph's `hmtx` advance
(defaulting to `(unitsPerEm, 0)`). -/
def fallbackAdv (f : FallbackFont) (ch : Char) : ℚ :=
  (((f.cmap ch).getD ".notdef") |> f.hmtx).getD (f.unitsPerEm, 0) |>.1

/-- Embeds `compute_lengths_fallback` (src/compute_app.py, lines 35–51)
after the font has been parsed: `per_letter` is a dict keyed by the
character, `total_units` sums every character's advance, and both are
scaled by `height_mm / unitsPerEm`. -/
def compute_lengths_fallback (f : FallbackFont) (text : List Char)
    (height_mm : ℚ) : List (Char × ℚ) × ℚ :=
  let scale := height_mm / f.unitsPerEm
  let r := text.foldl
    (fun acc ch => (dictUpsert acc.1 ch (fallbackAdv f ch * scale),
      acc.2 + fallbackAdv f ch)) ([], 0)
  (r.1, r.2 * scale)

/-- Embeds `compute_lengths_dispatch` (src/compute_app.py, lines 55–61):
when `USE_SIMPLE_METRICS` is unset and the centerline module imported,
try the accurate pipeline and silently swallow any exception it raises
(`center` is `some (.ok r)` on success, `some (.error e)` when it raised,
`none` when the import failed); otherwise, and on any fallthrough, return
the fallback's result, whose own font-parse failure propagates. -/
def compute_lengths_dispatch (useSimple : Bool)
    (center : Option (Except String (List CharMeasure × ℝ)))
    (fallback : Except FontLoadError (List (Char × ℚ) × ℚ)) :
    Except FontLoadError ((List CharMeasure × ℝ) ⊕ (List (Char × ℚ) × ℚ)) :=
  if useSimple = false then
    match center with
    | some (.ok r) => .ok (.inl r)
    | _ => fallback.map .inr
  else fallback.map .inr

/-! ## Filename sanitization (`_safe_piece`) -/

/-- Python's `str.isalnum`, modelled by Lean's ASCII
`Char.isAlphanum` (they agree on ASCII — in particular on `/` and `\` —
and Python additionally accepts some non-ASCII Unicode alphanumerics,
which the sanitization claim also counts as alphanumeric). -/
def pyIsAlnum (c : Char) : Bool := c.isAlphanum

/-- `s.strip("_")`: drop leading and trailing underscores. -/
def stripUnderscores (l : List Char) : List Char :=
  ((l.dropWhile (fun c => c = '_')).reverse.dropWhile (fun c => c = '_')).reverse

/-- Embeds `_safe_piece` (src/compute_app.py, lines 68–70): keep
alphanumerics and `-`, `_`, `.`, replace every other character by `_`,
strip underscores from both ends, and fall back to `"file"` when nothing
remains. -/
def safe_piece (s : List Char) : List Char :=
  let t := s.map (fun ch =>
    if pyIsAlnum ch || (ch = '-' || ch = '_' || ch = '.') then ch else '_')
  let u := stripUnderscores t
  if u = [] then ['f', 'i', 'l', 'e'] else u

/-! ## Concrete instances used by counterexamples and witnesses -/

/-- A 3×7 skeleton grid holding exactly two isolated true pixels, at
`(0,0)` and `(0,5)`.  `skimage.skeletonize` leaves isolated pixels in
place, so this is a reachable skeleton. -/
def cexGrid : Grid :=
  [[true, false, false, false, false, true, false],
   [false, false, false, false, false, false, false],
   [false, false, false, false, false, false, false]]

/-- Fallback font for the C2 counterexample: `unitsPerEm = 1000`, the
character `a` mapped to glyph `"a"` of advance width 500. -/
def cexFontC2 : FallbackFont where
  unitsPerEm := 1000
  cmap := fun c => if c = 'a' then some "a" else none
  hmtx := fun g => if g = "a" then some (500, 0) else none

/-- Fallback font for the C3 counterexample: the space character mapped
to a glyph `"space"` of advance width 600 (as in ordinary fonts, where
the space glyph has a positive advance). -/
def cexFontC3 : FallbackFont where
  unitsPerEm := 1000
  cmap := fun c => if c = ' ' then some "space" else none
  hmtx := fun g => if g = "space" then some (600, 0) else none

/-- Fallback font for the C4 counterexample: an empty cmap, and a
`".notdef"` glyph of advance width 500 in `hmtx`. -/
def cexFontC4 : FallbackFont where
  unitsPerEm := 1000
  cmap := fun _ => none
  hmtx := fun g => if g = ".notdef" then some (500, 0) else none

/-- Fallback font for the C5 counterexample: `unitsPerEm = 500`, empty
cmap, `".notdef"` advance 250. -/
def cexFontC5 : FallbackFont where
  unitsPerEm := 500
  cmap := fun _ => none
  hmtx := fun g => if g = ".notdef" then some (250, 0) else none

/-- Shape for the C7 counterexample: non-empty, with a degenerate
bounding box of zero width but positive height (`x = 0`, `0 ≤ y ≤ 2`) —
e.g. a contour of collinear points, which shapely keeps as a non-empty
zero-area polygon with these bounds.  PIL's `ImageDraw.polygon` paints
the outline of such a degenerate polygon, so its fill is not all-false;
the `fill` field records one painted pixel. -/
def cexShapeC7 : ShapeModel where
  isEmpty := false
  minx := 0
  miny := 0
  maxx := 0
  maxy := 2
  fill := fun n => [[true]] ++ List.replicate (n - 1) []

/-- An empty shape (used by the C7 witness). -/
def emptyShape : ShapeModel where
  isEmpty := true
  minx := 0
  miny := 0
  maxx := 0
  maxy := 0
  fill := fun _ => [[true]]

/-- A core font model with an empty cmap (used by witnesses). -/
def emptyFont : FontModel where
  upm := 1000
  cmap := fun _ => none
  glyphShape := fun _ => none

/-- A non-empty shape whose bounding box is the single point `(3, 4)`
(degenerate: extent 0). -/
def pointShape : ShapeModel where
  isEmpty := false
  minx := 3
  miny := 4
  maxx := 3
  maxy := 4
  fill := fun _ => [[true]]

/-- A core font model mapping `'o'` to the degenerate point shape and
`'e'` to the empty shape (used by witnesses for the absorbed
per-character conditions). -/
def degenerateFont : FontModel where
  upm := 1000
  cmap := fun c => if c = 'o' then some "o" else if c = 'e' then some "e" else none
  glyphShape := fun g =>
    if g = "o" then some pointShape
    else if g = "e" then some emptyShape
    else none

/-- Shape with positive extent for the C8 witness: bounding box
`[0, 2] × [0, 1]`. -/
def witnessShapeC8 : ShapeModel where
  isEmpty := false
  minx := 0
  miny := 0
  maxx := 2
  maxy := 1
  fill := fun _ => [[true]]

/-! ## Lemmas: counting under toroidal shifts -/

theorem count_zip_and : ∀ (r s : List Bool),
    (List.zipWith (· && ·) r s).count true =
      ((List.range (min r.length s.length)).filter
        (fun j => r.getD j false && s.getD j false)).length
  | [], s => by simp
  | a :: r, [] => by simp
  | a :: r, b :: s => by
    rw [List.zipWith_cons_cons, List.count_cons, count_zip_and r s]
    simp only [List.length_cons, Nat.succ_min_succ, List.range_succ_eq_map,
      List.filter_cons, List.filter_map, List.getD_cons_zero, List.getD_cons_succ,
      Function.comp_def, List.length_map]
    cases hab : a && b <;> simp [hab, Nat.add_comm]

theorem zipWith_sum_eq {α β : Type} (f : α → β → ℕ) (dA : α) (dB : β) :
    ∀ (A : List α) (B : List β),
      (List.zipWith f A B).sum =
        ((List.range (min A.length B.length)).map
          (fun i => f (A.getD i dA) (B.getD i dB))).sum
  | [], B => by simp
  | a :: A, [] => by simp
  | a :: A, b :: B => by
    rw [List.zipWith_cons_cons, List.sum_cons, zipWith_sum_eq f dA dB A B]
    simp [Nat.succ_min_succ, List.range_succ_eq_map, List.map_map, Function.comp_def]

theorem rotate_getD {α : Type} (l : List α) (n j : ℕ) (d : α) (h : j < l.length) :
    (l.rotate n).getD j d = l.getD ((j + n) % l.length) d := by
  have h1 : j < (l.rotate n).length := by simpa using h
  have h2 : (j + n) % l.length < l.length := Nat.mod_lt _ (Nat.lt_of_le_of_lt (Nat.zero_le j) h)
  rw [List.getD_eq_getElem _ _ h1, List.getD_eq_getElem _ _ h2, List.getElem_rotate]

theorem rect_row_length {A : Grid} {W : ℕ} (hA : Rect A W) {i : ℕ}
    (hi : i < A.length) : (A.getD i []).length = W := by
  have : A.getD i [] ∈ A := by
    rw [List.getD_eq_getElem _ _ hi]; exact List.getElem_mem hi
  exact hA _ this

/-- `andCount` of a grid against a toroidally shifted copy of itself,
expressed as an index-level pair count.  `B` is the shifted grid; `g i j`
gives the index pair it reads from. -/
theorem andCount_eq_torPairs_aux (A B : Grid) (W : ℕ) (hA : Rect A W)
    (hB : B.length = A.length)
    (hBW : ∀ i, i < A.length → (B.getD i []).length = W)
    (g : ℕ → ℕ → ℕ × ℕ)
    (hg : ∀ i j, i < A.length → j < W →
      (B.getD i []).getD j false = gridGet A (g i j).1 (g i j).2) :
    andCount A B =
      ((List.range A.length).map (fun i =>
        ((List.range W).filter (fun j =>
          gridGet A i j && gridGet A (g i j).1 (g i j).2)).length)).sum := by
  rw [andCount, zipWith_sum_eq _ [] [], hB, Nat.min_self]
  refine congrArg List.sum (List.map_congr_left ?_)
  intro i hi
  rw [List.mem_range] at hi
  rw [count_zip_and, rect_row_length hA hi, hBW i hi, Nat.min_self]
  refine congrArg List.length (List.filter_congr ?_)
  intro j hj
  rw [List.mem_range] at hj
  have : (A.getD i []).getD j false = gridGet A i j := rfl
  rw [this, hg i j hi hj]

theorem getD_map {α β : Type} (f : α → β) (l : List α) (i : ℕ) (d : α) (d' : β)
    (h : i < l.length) : (l.map f).getD i d' = f (l.getD i d) := by
  rw [List.getD_eq_getElem _ _ (by simpa using h), List.getElem_map,
    List.getD_eq_getElem _ _ h]

theorem andCount_down (A : Grid) (W : ℕ) (hA : Rect A W) :
    andCount A (rollRowsUp A) = torPairs A W 1 0 := by
  refine (andCount_eq_torPairs_aux A (rollRowsUp A) W hA (by simp [rollRowsUp]) ?_
    (fun i j => ((i + 1) % A.length, (j + 0) % W)) ?_).trans rfl
  · intro i hi
    rw [rollRowsUp, rotate_getD A 1 i [] hi]
    exact rect_row_length hA (Nat.mod_lt _ (Nat.lt_of_le_of_lt (Nat.zero_le i) hi))
  · intro i j hi hj
    rw [rollRowsUp, rotate_getD A 1 i [] hi]
    simp [gridGet, Nat.mod_eq_of_lt hj]

theorem andCount_right (A : Grid) (W : ℕ) (hA : Rect A W) :
    andCount A (rollColsLeft A) = torPairs A W 0 1 := by
  refine (andCount_eq_torPairs_aux A (rollColsLeft A) W hA (by simp [rollColsLeft]) ?_
    (fun i j => ((i + 0) % A.length, (j + 1) % W)) ?_).trans rfl
  · intro i hi
    rw [rollColsLeft, getD_map _ A i [] [] hi, List.length_rotate]
    exact rect_row_length hA hi
  · intro i j hi hj
    have hr : (A.getD i []).length = W := rect_row_length hA hi
    rw [rollColsLeft, getD_map _ A i [] [] hi,
      rotate_getD (A.getD i []) 1 j false (by rw [hr]; exact hj), hr]
    simp [gridGet, Nat.mod_eq_of_lt hi]

theorem andCount_downright (A : Grid) (W : ℕ) (hA : Rect A W) :
    andCount A (rollColsLeft (rollRowsUp A)) = torPairs A W 1 1 := by
  refine (andCount_eq_torPairs_aux A (rollColsLeft (rollRowsUp A)) W hA
    (by simp [rollColsLeft, rollRowsUp]) ?_
    (fun i j => ((i + 1) % A.length, (j + 1) % W)) ?_)
    |>.trans rfl
  · intro i hi
    have hi' : i < (rollRowsUp A).length := by simpa [rollRowsUp] using hi
    rw [rollColsLeft, getD_map _ _ i [] [] hi', List.length_rotate, rollRowsUp,
      rotate_getD A 1 i [] hi]
    exact rect_row_length hA (Nat.mod_lt _ (Nat.lt_of_le_of_lt (Nat.zero_le i) hi))
  · intro i j hi hj
    have hi' : i < (rollRowsUp A).length := by simpa [rollRowsUp] using hi
    have hrow : (rollRowsUp A).getD i [] = A.getD ((i + 1) % A.length) [] :=
      rotate_getD A 1 i [] hi
    have hr : (A.getD ((i + 1) % A.length) []).length = W :=
      rect_row_length hA (Nat.mod_lt _ (Nat.lt_of_le_of_lt (Nat.zero_le i) hi))
    rw [rollColsLeft, getD_map _ _ i [] [] hi', hrow,
      rotate_getD _ 1 j false (by rw [hr]; exact hj), hr]
    simp [gridGet]

theorem andCount_downleft (A : Grid) (W : ℕ) (hA : Rect A W) :
    andCount A (rollColsRight (rollRowsUp A)) = torPairs A W 1 (W - 1) := by
  refine (andCount_eq_torPairs_aux A (rollColsRight (rollRowsUp A)) W hA
    (by simp [rollColsRight, rollRowsUp]) ?_
    (fun i j => ((i + 1) % A.length, (j + (W - 1)) % W)) ?_)
    |>.trans rfl
  · intro i hi
    have hi' : i < (rollRowsUp A).length := by simpa [rollRowsUp] using hi
    rw [rollColsRight, getD_map _ _ i [] [] hi', List.length_rotate, rollRowsUp,
      rotate_getD A 1 i [] hi]
    exact rect_row_length hA (Nat.mod_lt _ (Nat.lt_of_le_of_lt (Nat.zero_le i) hi))
  · intro i j hi hj
    have hi' : i < (rollRowsUp A).length := by simpa [rollRowsUp] using hi
    have hrow : (rollRowsUp A).getD i [] = A.getD ((i + 1) % A.length) [] :=
      rotate_getD A 1 i [] hi
    have hr : (A.getD ((i + 1) % A.length) []).length = W :=
      rect_row_length hA (Nat.mod_lt _ (Nat.lt_of_le_of_lt (Nat.zero_le i) hi))
    rw [rollColsRight, getD_map _ _ i [] [] hi', hrow,
      rotate_getD _ ((A.getD ((i + 1) % A.length) []).length - 1) j false
        (by rw [hr]; exact hj), hr]
    simp [gridGet]

/-! ## Lemmas: the orchestrator in closed form -/

theorem measureStep_eq (sk : Grid → Grid) (font : FontModel) (h : ℚ)
    (acc : List CharMeasure × ℝ) (ch : Char) :
    measureStep sk font h acc ch =
      (acc.1 ++ [charMeasureOf sk font h ch], acc.2 + charUnits sk font ch) := by
  rw [measureStep, charMeasureOf, charUnits]
  by_cases hsp : ch = ' '
  · simp [hsp]
  · simp only [hsp, if_false]
    cases hgp : glyph_polygon font ch with
    | none => simp
    | some s =>
      by_cases he : s.isEmpty
      · simp [he]
      · simp only [he, if_false, Bool.false_eq_true]
        by_cases hw : s.extent ≤ 0
        · simp [hw]
        · simp [hw]

theorem foldl_measureStep (sk : Grid → Grid) (font : FontModel) (h : ℚ) :
    ∀ (t : List Char) (acc : List CharMeasure × ℝ),
      t.foldl (measureStep sk font h) acc =
        (acc.1 ++ t.map (charMeasureOf sk font h),
          acc.2 + (t.map (charUnits sk font)).sum)
  | [], acc => by simp
  | ch :: t, acc => by
    rw [List.foldl_cons, measureStep_eq, foldl_measureStep sk font h t]
    simp [add_assoc]

/-- `compute_lengths` in closed form: the per-character list is a map
over the text, and the total is the summed per-character units times the
single height scale factor. -/
theorem compute_lengths_eq (sk : Grid → Grid) (font : FontModel)
    (t : List Char) (h : ℚ) :
    compute_lengths sk font t h =
      (t.map (charMeasureOf sk font h),
        (t.map (charUnits sk font)).sum * ((h / font.upm : ℚ) : ℝ)) := by
  rw [compute_lengths, foldl_measureStep]
  simp

theorem charUnits_space (sk : Grid → Grid) (font : FontModel) :
    charUnits sk font ' ' = 0 := by
  simp [charUnits]

theorem charUnits_of_no_glyph (sk : Grid → Grid) (font : FontModel) (ch : Char)
    (hg : glyph_polygon font ch = none) : charUnits sk font ch = 0 := by
  rw [charUnits, hg]
  by_cases hsp : ch = ' ' <;> simp [hsp]

theorem charUnits_of_empty_shape (sk : Grid → Grid) (font : FontModel) (ch : Char)
    (s : ShapeModel) (hg : glyph_polygon font ch = some s)
    (he : s.isEmpty = true) : charUnits sk font ch = 0 := by
  rw [charUnits, hg]
  by_cases hsp : ch = ' ' <;> simp [hsp, he]

theorem charUnits_of_degenerate (sk : Grid → Grid) (font : FontModel) (ch : Char)
    (s : ShapeModel) (hg : glyph_polygon font ch = some s)
    (hw : s.extent ≤ 0) : charUnits sk font ch = 0 := by
  rw [charUnits, hg]
  by_cases hsp : ch = ' '
  · simp [hsp]
  · by_cases he : s.isEmpty <;> simp [hsp, he, hw]

/-! ## Lemmas: the fallback scales linearly -/

theorem dictUpsert_map_mul (l : List (Char × ℚ)) (k : Char) (v c : ℚ) :
    dictUpsert (l.map (fun p => (p.1, c * p.2))) k (c * v) =
      (dictUpsert l k v).map (fun p => (p.1, c * p.2)) := by
  rw [dictUpsert, dictUpsert]
  have hany : (l.map (fun p => (p.1, c * p.2))).any (fun p => decide (p.1 = k)) =
      l.any (fun p => decide (p.1 = k)) := by
    rw [List.any_map]; rfl
  rw [hany]
  by_cases hk : l.any (fun p => decide (p.1 = k)) = true
  · rw [if_pos hk, if_pos hk, List.map_map, List.map_map]
    refine List.map_congr_left ?_
    intro p _
    by_cases hp : p.1 = k <;> simp [hp, Function.comp_def]
  · rw [if_neg hk, if_neg hk, List.map_append]; rfl

theorem fallback_foldl_mul (f : FallbackFont) (c s : ℚ) :
    ∀ (t : List Char) (l : List (Char × ℚ)) (u : ℚ),
      t.foldl (fun acc ch =>
          (dictUpsert acc.1 ch (fallbackAdv f ch * (c * s)),
            acc.2 + fallbackAdv f ch))
        (l.map (fun p => (p.1, c * p.2)), u) =
      ((t.foldl (fun acc ch =>
          (dictUpsert acc.1 ch (fallbackAdv f ch * s),
            acc.2 + fallbackAdv f ch)) (l, u)).1.map (fun p => (p.1, c * p.2)),
       (t.foldl (fun acc ch =>
          (dictUpsert acc.1 ch (fallbackAdv f ch * s),
            acc.2 + fallbackAdv f ch)) (l, u)).2)
  | [], l, u => by simp
  | ch :: t, l, u => by
    rw [List.foldl_cons, List.foldl_cons]
    have hmul : fallbackAdv f ch * (c * s) = c * (fallbackAdv f ch * s) := by ring
    rw [hmul, dictUpsert_map_mul]
    exact fallback_foldl_mul f c s t (dictUpsert l ch (fallbackAdv f ch * s))
      (u + fallbackAdv f ch)

/-! ## Lemmas: sanitization -/

theorem mem_stripUnderscores {l : List Char} {c : Char}
    (h : c ∈ stripUnderscores l) : c ∈ l := by
  rw [stripUnderscores, List.mem_reverse] at h
  have h2 := List.dropWhile_subset (fun c => decide (c = '_')) h
  rw [List.mem_reverse] at h2
  exact List.dropWhile_subset (fun c => decide (c = '_')) h2

theorem safe_piece_chars (s : List Char) {c : Char} (h : c ∈ safe_piece s) :
    (pyIsAlnum c || (c = '-' || c = '_' || c = '.')) = true := by
  rw [safe_piece] at h
  by_cases hu : stripUnderscores (s.map (fun ch =>
      if pyIsAlnum ch || (ch = '-' || ch = '_' || ch = '.') then ch else '_')) = []
  · rw [if_pos hu] at h
    fin_cases h <;> decide
  · rw [if_neg hu] at h
    have h2 := mem_stripUnderscores h
    rw [List.mem_map] at h2
    obtain ⟨a, _, ha⟩ := h2
    by_cases hp : (pyIsAlnum a || (a = '-' || a = '_' || a = '.')) = true
    · rw [if_pos hp] at ha; rw [← ha]; exact hp
    · rw [if_neg hp] at ha; rw [← ha]; decide

/-! ## Claim theorems -/

/-- C1 (amended): the SVG-export estimator `_length_from_skeleton_bool`
implements the canonical neighbour-sum policy: for every rectangular
skeleton grid and scale factor its result is (axis-aligned adjacent
true-pixel pair count along down and right + √2 × diagonally adjacent
pair count along both diagonals, toroidal shift comparisons) × physical
units per pixel.  The core estimator `_skeleton_length` is instead the
legacy sequential scan-order policy (see the counterexample). -/
theorem C1_neighbor_sum_policy (A : Grid) (W : ℕ) (u : ℝ) (hA : Rect A W) :
    length_from_skeleton_bool A u = specNeighborSumLength A W u := by
  simp only [length_from_skeleton_bool, specNeighborSumLength]
  rw [andCount_down A W hA, andCount_right A W hA, andCount_downright A W hA,
    andCount_downleft A W hA]
  push_cast
  ring

/-- Witness for C1: the amended theorem at a concrete 3×7 grid. -/
theorem C1_neighbor_sum_policy_witness :
    Rect cexGrid 7 ∧
      length_from_skeleton_bool cexGrid 1 = specNeighborSumLength cexGrid 7 1 :=
  ⟨(by decide : ∀ r ∈ cexGrid, r.length = 7),
    C1_neighbor_sum_policy cexGrid 7 1 (by decide : ∀ r ∈ cexGrid, r.length = 7)⟩

/-- C1 counterexample: on a concrete skeleton with two isolated pixels in
one row, the core estimator `_skeleton_length` (at scale 1) returns 5 —
the Euclidean distance between the two raster-scan-consecutive pixels —
while the neighbour-sum policy value is 0 (there are no adjacent pairs),
so the core skeleton length estimator does not return the neighbour-sum
value. -/
theorem C1_scan_order_counterexample :
    skeleton_length cexGrid 1 = 5 ∧ specNeighborSumLength cexGrid 7 1 = 0 ∧
      skeleton_length cexGrid 1 ≠ specNeighborSumLength cexGrid 7 1 := by
  have hw : whereList cexGrid = [(0, 0), (0, 5)] := by decide
  have hsd : stepDist (0, 0) (0, 5) = 5 := by
    rw [stepDist]
    norm_num
    rw [show (25 : ℝ) = 5 ^ 2 by norm_num]
    exact Real.sqrt_sq (by norm_num)
  have hseq : seqLen [(0, 0), (0, 5)] = 5 := by
    show stepDist (0, 0) (0, 5) + seqLen [(0, 5)] = 5
    show stepDist (0, 0) (0, 5) + 0 = 5
    rw [hsd, add_zero]
  have h5 : skeleton_length cexGrid 1 = 5 := by
    show (if (whereList cexGrid).length < 2 then (0 : ℝ)
      else seqLen (whereList cexGrid) * 1) = 5
    rw [hw, if_neg (by decide : ¬(([(0, 0), (0, 5)] : List (ℕ × ℕ)).length < 2)),
      hseq, mul_one]
  have t1 : torPairs cexGrid 7 1 0 = 0 := by decide
  have t2 : torPairs cexGrid 7 0 1 = 0 := by decide
  have t3 : torPairs cexGrid 7 1 1 = 0 := by decide
  have t4 : torPairs cexGrid 7 1 (7 - 1) = 0 := by decide
  have hspec : specNeighborSumLength cexGrid 7 1 = 0 := by
    simp [specNeighborSumLength, t1, t2, t3, t4]
  exact ⟨h5, hspec, by rw [h5, hspec]; norm_num⟩

/-- C2 (amended): for the core pipeline `compute_lengths`, the
measurement has exactly one entry per input character, in input order
(the entries' characters, in order, are exactly the input text), and the
returned total equals the sum of the entries' lengths.  The advance-width
fallback — the default dispatch path — violates this (see the
counterexample): its dict collapses repeated characters and its total
still counts every occurrence. -/
theorem C2_entries_and_total (sk : Grid → Grid) (font : FontModel)
    (t : List Char) (h : ℚ) :
    (compute_lengths sk font t h).1.map CharMeasure.char = t ∧
    (compute_lengths sk font t h).1.length = t.length ∧
    (compute_lengths sk font t h).2 =
      ((compute_lengths sk font t h).1.map CharMeasure.length_mm).sum := by
  rw [compute_lengths_eq]
  refine ⟨?_, by simp, ?_⟩
  · simp [charMeasureOf, List.map_map, Function.comp_def]
  · simp only [List.map_map]
    exact (List.sum_map_mul_right t (charUnits sk font)
      ((h / font.upm : ℚ) : ℝ)).symm

/-- C2 counterexample: in the fallback, the two-character text "aa"
yields a single dict entry, and the returned total 1000 is not the sum
500 of the entries' lengths. -/
theorem C2_fallback_counterexample :
    (compute_lengths_fallback cexFontC2 ['a', 'a'] 1000).1.length = 1 ∧
    (1 : ℕ) ≠ 2 ∧
    (compute_lengths_fallback cexFontC2 ['a', 'a'] 1000).2 = 1000 ∧
    ((compute_lengths_fallback cexFontC2 ['a', 'a'] 1000).1.map Prod.snd).sum
      = 500 ∧
    (1000 : ℚ) ≠ 500 := by
  have h1 : compute_lengths_fallback cexFontC2 ['a', 'a'] 1000 =
      ([('a', 500)], 1000) := by
    norm_num [compute_lengths_fallback, fallbackAdv, dictUpsert, cexFontC2,
      List.foldl]
  refine ⟨by rw [h1]; rfl, by decide, by rw [h1], ?_, by norm_num⟩
  rw [h1]
  norm_num [List.sum_cons]

/-- C3 (amended): in the core pipeline every space character's entry has
length 0.0 and a text of only spaces has total length 0.0.  The fallback
— the default dispatch path — violates this (see the counterexample): it
does not special-case the space and reports its glyph's advance width. -/
theorem C3_space_zero (sk : Grid → Grid) (font : FontModel) (t : List Char)
    (h : ℚ) :
    (∀ m ∈ (compute_lengths sk font t h).1, m.char = ' ' → m.length_mm = 0) ∧
    ((∀ ch ∈ t, ch = ' ') → (compute_lengths sk font t h).2 = 0) := by
  rw [compute_lengths_eq]
  constructor
  · intro m hm hsp
    simp only [List.mem_map] at hm
    obtain ⟨ch, _, hme⟩ := hm
    rw [← hme] at hsp ⊢
    simp only [charMeasureOf] at hsp ⊢
    rw [hsp, charUnits_space, zero_mul]
  · intro hall
    have hz : t.map (charUnits sk font) = t.map (fun _ => (0 : ℝ)) :=
      List.map_congr_left (fun ch hch => by rw [hall ch hch, charUnits_space])
    simp [hz]

/-- Witness for C3: a concrete font, thinning function and single-space
text. -/
theorem C3_space_zero_witness :
    (compute_lengths (fun g => g) emptyFont [' '] 100).2 = 0 :=
  (C3_space_zero (fun g => g) emptyFont [' '] 100).2
    (fun ch hch => by simpa using hch)

/-- C3 counterexample: in the fallback, a font whose space glyph has
advance width 600 measures the single-space text as 600, not 0. -/
theorem C3_fallback_counterexample :
    (compute_lengths_fallback cexFontC3 [' '] 1000).1 = [(' ', 600)] ∧
    (compute_lengths_fallback cexFontC3 [' '] 1000).2 = 600 ∧
    (600 : ℚ) ≠ 0 := by
  have h1 : compute_lengths_fallback cexFontC3 [' '] 1000 = ([(' ', 600)], 600) := by
    norm_num [compute_lengths_fallback, fallbackAdv, dictUpsert, cexFontC3,
      List.foldl]
  exact ⟨by rw [h1], by rw [h1], by norm_num⟩

/-- C4 (amended): in the core pipeline, a non-space character absent from
the font's character map yields length 0.0 and measuring it returns
normally.  The fallback — the default dispatch path — instead substitutes
the ".notdef" glyph's advance width, which is nonzero in general (see
the counterexample). -/
theorem C4_missing_glyph_zero (sk : Grid → Grid) (font : FontModel) (ch : Char)
    (h : ℚ) (_hch : ch ≠ ' ') (hmap : font.cmap ch = none) :
    charUnits sk font ch = 0 ∧
      compute_lengths sk font [ch] h = ([⟨ch, 0⟩], 0) := by
  have hz : charUnits sk font ch = 0 :=
    charUnits_of_no_glyph sk font ch (by rw [glyph_polygon, hmap])
  refine ⟨hz, ?_⟩
  rw [compute_lengths_eq]
  simp [charMeasureOf, hz]

/-- Witness for C4: a concrete empty-cmap font and the character 'x'. -/
theorem C4_missing_glyph_zero_witness :
    ('x' ≠ ' ') ∧ emptyFont.cmap 'x' = none ∧
      (charUnits (fun g => g) emptyFont 'x' = 0 ∧
        compute_lengths (fun g => g) emptyFont ['x'] 100 = ([⟨'x', 0⟩], 0)) :=
  ⟨by decide, rfl,
    C4_missing_glyph_zero (fun g => g) emptyFont 'x' 100 (by decide) rfl⟩

/-- C4 counterexample: in the fallback, the character 'x' is absent from
the cmap yet is measured with the ".notdef" advance 500, so its length is
500, not 0, and no error is raised. -/
theorem C4_fallback_counterexample :
    cexFontC4.cmap 'x' = none ∧
    (compute_lengths_fallback cexFontC4 ['x'] 1000).1 = [('x', 500)] ∧
    (500 : ℚ) ≠ 0 := by
  have h1 : compute_lengths_fallback cexFontC4 ['x'] 1000 = ([('x', 500)], 500) := by
    norm_num [compute_lengths_fallback, fallbackAdv, dictUpsert, cexFontC4,
      List.foldl]
  exact ⟨rfl, by rw [h1], by norm_num⟩

/-- C5 (amended): only the font-load error propagates out of measuring:
`measure` fails exactly when font parsing fails; in the core pipeline the
per-character conditions — missing glyph, empty shape, degenerate
bounding box — all yield zero-length entries rather than errors; and the
dispatcher propagates only the fallback's font-load error (the accurate
path's exceptions are swallowed).  As stated the claim also asserts the
absorbed per-character result is always zero-length, which the default
fallback path violates (see the counterexample). -/
theorem C5_error_propagation :
    (∀ (e : FontLoadError) (sk : Grid → Grid) (t : List Char) (h : ℚ),
      measure (.error e) sk t h = .error e) ∧
    (∀ (font : FontModel) (sk : Grid → Grid) (t : List Char) (h : ℚ),
      measure (.ok font) sk t h = .ok (compute_lengths sk font t h)) ∧
    (∀ (sk : Grid → Grid) (font : FontModel) (ch : Char),
      glyph_polygon font ch = none → charUnits sk font ch = 0) ∧
    (∀ (sk : Grid → Grid) (font : FontModel) (ch : Char) (s : ShapeModel),
      glyph_polygon font ch = some s → s.isEmpty = true →
        charUnits sk font ch = 0) ∧
    (∀ (sk : Grid → Grid) (font : FontModel) (ch : Char) (s : ShapeModel),
      glyph_polygon font ch = some s → s.extent ≤ 0 →
        charUnits sk font ch = 0) ∧
    (∀ (u : Bool) (c : Option (Except String (List CharMeasure × ℝ)))
      (fb : Except FontLoadError (List (Char × ℚ) × ℚ)) (e : FontLoadError),
      compute_lengths_dispatch u c fb = .error e → fb = .error e) := by
  refine ⟨fun e sk t h => rfl, fun font sk t h => rfl,
    fun sk font ch hg => charUnits_of_no_glyph sk font ch hg,
    fun sk font ch s hg he => charUnits_of_empty_shape sk font ch s hg he,
    fun sk font ch s hg hw => charUnits_of_degenerate sk font ch s hg hw, ?_⟩
  intro u c fb e hd
  cases fb with
  | error e2 =>
    cases u with
    | false =>
      cases c with
      | none => simpa [compute_lengths_dispatch, Except.map] using hd
      | some x =>
        cases x with
        | error e3 => simpa [compute_lengths_dispatch, Except.map] using hd
        | ok r => simp [compute_lengths_dispatch] at hd
    | true => simpa [compute_lengths_dispatch, Except.map] using hd
  | ok r =>
    cases u with
    | false =>
      cases c with
      | none => simp [compute_lengths_dispatch, Except.map] at hd
      | some x =>
        cases x with
        | error e3 => simp [compute_lengths_dispatch, Except.map] at hd
        | ok r2 => simp [compute_lengths_dispatch] at hd
    | true => simp [compute_lengths_dispatch, Except.map] at hd

/-- Witness for C5 at concrete inputs. -/
theorem C5_error_propagation_witness :
    measure (.error "bad font") (fun g => g) ['a'] 50 = .error "bad font" ∧
    charUnits (fun g => g) emptyFont 'x' = 0 ∧
    (Except.error "bad font" : Except FontLoadError (List (Char × ℚ) × ℚ)) =
      .error "bad font" :=
  ⟨C5_error_propagation.1 "bad font" (fun g => g) ['a'] 50,
   C5_error_propagation.2.2.1 (fun g => g) emptyFont 'x' rfl,
   C5_error_propagation.2.2.2.2.2 true none (.error "bad font") "bad font" rfl⟩

/-- C5 counterexample: with the default configuration the dispatcher runs
the advance-width fallback; there a missing glyph is absorbed into a
NONZERO per-character result (the ".notdef" advance 250), not a
zero-length one. -/
theorem C5_fallback_counterexample :
    compute_lengths_dispatch true none
        (.ok (compute_lengths_fallback cexFontC5 ['q'] 500)) =
      .ok (.inr (compute_lengths_fallback cexFontC5 ['q'] 500)) ∧
    (compute_lengths_fallback cexFontC5 ['q'] 500).1 = [('q', 250)] ∧
    (250 : ℚ) ≠ 0 := by
  have h1 : compute_lengths_fallback cexFontC5 ['q'] 500 = ([('q', 250)], 250) := by
    norm_num [compute_lengths_fallback, fallbackAdv, dictUpsert, cexFontC5,
      List.foldl]
  exact ⟨rfl, by rw [h1], by norm_num⟩

/-- C6: per-character lengths and the total are linear in the target
height: doubling it doubles every entry and the total, exactly, in both
the core pipeline and the advance-width fallback, since each reported
length is a height-independent unit length times the scale factor
height/unitsPerEm. -/
theorem C6_linear_in_height (sk : Grid → Grid) (font : FontModel)
    (fb : FallbackFont) (t : List Char) (h : ℚ) :
    (compute_lengths sk font t (2 * h)).1 =
      (compute_lengths sk font t h).1.map (fun m => ⟨m.char, 2 * m.length_mm⟩) ∧
    (compute_lengths sk font t (2 * h)).2 = 2 * (compute_lengths sk font t h).2 ∧
    (compute_lengths_fallback fb t (2 * h)).1 =
      (compute_lengths_fallback fb t h).1.map (fun p => (p.1, 2 * p.2)) ∧
    (compute_lengths_fallback fb t (2 * h)).2 =
      2 * (compute_lengths_fallback fb t h).2 := by
  have hcast : ((2 * h / font.upm : ℚ) : ℝ) = 2 * ((h / font.upm : ℚ) : ℝ) := by
    push_cast
    ring
  have key := fallback_foldl_mul fb 2 (h / fb.unitsPerEm) t [] 0
  rw [List.map_nil] at key
  refine ⟨?_, ?_, ?_, ?_⟩
  · rw [compute_lengths_eq, compute_lengths_eq]
    simp only [List.map_map]
    refine List.map_congr_left ?_
    intro ch _
    simp only [Function.comp_def, charMeasureOf, hcast]
    congr 1
    ring
  · rw [compute_lengths_eq, compute_lengths_eq]
    simp only [hcast]
    ring
  · simp only [compute_lengths_fallback, mul_div_assoc]
    rw [key]
  · simp only [compute_lengths_fallback, mul_div_assoc]
    rw [key]
    ring

/-- C7 (amended): the rasterizer returns an all-false grid of the
requested size when the shape is empty or when the larger bounding-box
extent `max(width, height)` is `≤ 0` — and in the latter case the
pipeline reports the character's length as 0.0.  A shape degenerate
along only one axis (zero width but positive height) does not take the
all-false branch: see the counterexample. -/
theorem C7_degenerate_handling :
    (∀ (s : ShapeModel) (raster : ℕ), s.isEmpty = true ∨ s.extent ≤ 0 →
      rasterize_polygon_fast s raster = zerosGrid raster) ∧
    (∀ (sk : Grid → Grid) (font : FontModel) (ch : Char) (s : ShapeModel),
      glyph_polygon font ch = some s → s.extent ≤ 0 →
        charUnits sk font ch = 0) := by
  constructor
  · intro s raster hcond
    rcases hcond with he | hw
    · simp [rasterize_polygon_fast, he]
    · by_cases he : s.isEmpty <;> simp [rasterize_polygon_fast, he, hw]
  · exact fun sk font ch s hg hw => charUnits_of_degenerate sk font ch s hg hw

/-- Witness for C7: the empty shape rasterizes to the all-false 3×3 grid,
and a font mapping 'o' to a degenerate point-bounded shape measures it as
zero. -/
theorem C7_degenerate_handling_witness :
    (emptyShape.isEmpty = true ∨ emptyShape.extent ≤ 0) ∧
    rasterize_polygon_fast emptyShape 3 = zerosGrid 3 ∧
    (glyph_polygon degenerateFont 'o' = some pointShape ∧
      pointShape.extent ≤ 0 ∧
      charUnits (fun g => g) degenerateFont 'o' = 0) :=
  ⟨Or.inl rfl, C7_degenerate_handling.1 emptyShape 3 (Or.inl rfl),
    rfl, by norm_num [ShapeModel.extent, pointShape],
    C7_degenerate_handling.2 (fun g => g) degenerateFont 'o' pointShape rfl
      (by norm_num [ShapeModel.extent, pointShape])⟩

/-- C7 counterexample: a non-empty shape whose bounding box has zero
width but height 2 is degenerate in the claim's sense, yet the rasterizer
does not return the all-false grid: the guard only fires when the larger
extent `max(width, height)` is `≤ 0`, so the shape proceeds to the PIL
polygon fill (which paints the outline pixels of the degenerate
polygon). -/
theorem C7_counterexample :
    cexShapeC7.maxx - cexShapeC7.minx = 0 ∧ cexShapeC7.isEmpty = false ∧
      rasterize_polygon_fast cexShapeC7 400 ≠ zerosGrid 400 := by
  have h1 : rasterize_polygon_fast cexShapeC7 400 =
      [[true]] ++ List.replicate 399 [] := by
    rw [rasterize_polygon_fast,
      if_neg (by norm_num [cexShapeC7] : ¬(cexShapeC7.isEmpty = true)),
      if_neg (by norm_num [ShapeModel.extent, cexShapeC7] :
        ¬(cexShapeC7.extent ≤ 0))]
    rfl
  refine ⟨by norm_num [cexShapeC7], rfl, ?_⟩
  rw [h1]
  intro hEq
  have h2 := congrArg (fun l => (List.getD l 0 []).length) hEq
  simp only at h2
  rw [show (([[true]] ++ List.replicate 399 ([] : List Bool)).getD 0 []).length = 1
      from rfl,
    zerosGrid, List.getD_eq_getElem _ _ (by rw [List.length_replicate]; norm_num),
    List.getElem_replicate, List.length_replicate] at h2
  exact absurd h2 (by norm_num)

/-- C8: for every shape with positive extent, the rasterizer's affine
transform applies the single uniform scale (raster − 2)/max(width,
height) identically to both axes and maps every bounding-box point into
[1, raster − 1]², i.e. inside the raster × raster grid with at least one
unit of padding on each side. -/
theorem C8_uniform_scale_padding (s : ShapeModel) (raster x y : ℚ)
    (hE : 0 < s.extent) (hr : 2 ≤ raster) (hx1 : s.minx ≤ x) (hx2 : x ≤ s.maxx)
    (hy1 : s.miny ≤ y) (hy2 : y ≤ s.maxy) :
    rasterTransform s raster (x, y) =
      ((x - s.minx) * uniformScale s raster + 1,
        (s.maxy - y) * uniformScale s raster + 1) ∧
    1 ≤ (rasterTransform s raster (x, y)).1 ∧
    (rasterTransform s raster (x, y)).1 ≤ raster - 1 ∧
    1 ≤ (rasterTransform s raster (x, y)).2 ∧
    (rasterTransform s raster (x, y)).2 ≤ raster - 1 := by
  have htx : rasterTransform s raster (x, y) =
      ((x - s.minx) * uniformScale s raster + 1,
        (s.maxy - y) * uniformScale s raster + 1) := by
    simp only [rasterTransform, uniformScale, Prod.mk.injEq]
    constructor <;> ring_nf
  have hs0 : 0 ≤ uniformScale s raster :=
    div_nonneg (by linarith) hE.le
  have hWs : s.extent * uniformScale s raster = raster - 2 := by
    rw [uniformScale, mul_div_cancel₀ _ (ne_of_gt hE)]
  have hxe : x - s.minx ≤ s.extent :=
    le_trans (by linarith) (le_max_left (s.maxx - s.minx) (s.maxy - s.miny))
  have hye : s.maxy - y ≤ s.extent :=
    le_trans (by linarith) (le_max_right (s.maxx - s.minx) (s.maxy - s.miny))
  refine ⟨htx, ?_, ?_, ?_, ?_⟩ <;> rw [htx]
  · have := mul_nonneg (sub_nonneg.2 hx1) hs0
    simpa using by linarith
  · have := mul_le_mul_of_nonneg_right hxe hs0
    simp only
    linarith [hWs]
  · have := mul_nonneg (sub_nonneg.2 hy2) hs0
    simpa using by linarith
  · have := mul_le_mul_of_nonneg_right hye hs0
    simp only
    linarith [hWs]

/-- Witness for C8 at a concrete shape with bounding box [0,2]×[0,1],
raster 400 and the interior point (1, 1/2). -/
theorem C8_uniform_scale_padding_witness :
    0 < witnessShapeC8.extent ∧
    (rasterTransform witnessShapeC8 400 (1, 1/2) =
        ((1 - witnessShapeC8.minx) * uniformScale witnessShapeC8 400 + 1,
          (witnessShapeC8.maxy - 1/2) * uniformScale witnessShapeC8 400 + 1) ∧
      1 ≤ (rasterTransform witnessShapeC8 400 (1, 1/2)).1 ∧
      (rasterTransform witnessShapeC8 400 (1, 1/2)).1 ≤ 400 - 1 ∧
      1 ≤ (rasterTransform witnessShapeC8 400 (1, 1/2)).2 ∧
      (rasterTransform witnessShapeC8 400 (1, 1/2)).2 ≤ 400 - 1) :=
  ⟨by norm_num [ShapeModel.extent, witnessShapeC8],
    C8_uniform_scale_padding witnessShapeC8 400 1 (1/2)
      (by norm_num [ShapeModel.extent, witnessShapeC8])
      (by norm_num) (by norm_num [witnessShapeC8])
      (by norm_num [witnessShapeC8]) (by norm_num [witnessShapeC8])
      (by norm_num [witnessShapeC8])⟩

/-- C9: per-character measurements are independent of the surrounding
text: the measurement list is the pointwise image of a per-character
function over the text (so any occurrence of a character `c`, in any
text, gets the same entry), and measuring `c` alone yields exactly that
entry. -/
theorem C9_per_character_independence (sk : Grid → Grid) (font : FontModel)
    (h : ℚ) :
    (∀ t, (compute_lengths sk font t h).1 = t.map (charMeasureOf sk font h)) ∧
    (∀ c, (compute_lengths sk font [c] h).1 = [charMeasureOf sk font h c]) := by
  constructor
  · intro t
    rw [compute_lengths_eq]
  · intro c
    rw [compute_lengths_eq]
    rfl

/-- C10: the filename sanitizer `_safe_piece` returns a non-empty string
(falling back to "file") in which every character is alphanumeric or one
of '-', '_', '.'; in particular its output never contains the path
separators '/' or '\'. -/
theorem C10_safe_piece_safe (s : List Char) :
    0 < (safe_piece s).length ∧
    (safe_piece s).all
      (fun c => pyIsAlnum c || (c = '-' || c = '_' || c = '.')) = true ∧
    (safe_piece s).count '/' = 0 ∧
    (safe_piece s).count '\\' = 0 := by
  have hall : ∀ c ∈ safe_piece s,
      (pyIsAlnum c || (c = '-' || c = '_' || c = '.')) = true :=
    fun c hc => safe_piece_chars s hc
  refine ⟨?_, List.all_eq_true.2 hall, ?_, ?_⟩
  · rw [safe_piece]
    split
    · decide
    · next hne => exact List.length_pos.2 hne
  · rw [List.count_eq_zero]
    intro hmem
    exact absurd (hall _ hmem) (by decide)
  · rw [List.count_eq_zero]
    intro hmem
    exact absurd (hall _ hmem) (by decide)

end WiringCompute
